import Mathlib

/-!
# Verification of the Swath_movers analytics core

Shallow embedding of the gap-detection scan of
`src/telegram_bot_queries.py` (`TelegramQueries.get_line_gaps`,
`get_all_lines_with_gaps`, `get_gap_statistics`) and of the polynomial
coordinate transform of `src/postplot/enserv_transform.py`
(`CoordinateTransform`), together with proofs of the specified
properties.

Python floats are embedded as rationals (`ℚ`), Python ints as `ℤ`.
The SQL layer is external: the per-line coverage sequence that the SQL
query materialises (`ORDER BY c.shotpoint`, one `(shotpoint,
has_deployment)` row per coordinate) is taken as the input list, and a
whole database is a list of `(line, coverage)` pairs.
-/

namespace SwathMovers

/-- A detected gap, embedding the dict
`{'line', 'start_shotpoint', 'end_shotpoint', 'size'}` built by
`TelegramQueries.get_line_gaps`. -/
structure Gap where
  line : Int
  start_shotpoint : Int
  end_shotpoint : Int
  size : Int
  deriving Repr, DecidableEq

/-- The `for shotpoint, has_deployment in results` loop body of
`get_line_gaps`, written as structural recursion over the remaining
rows, carrying the Python loop state `(gaps, gap_start, gap_size)`.

* empty shotpoint (`has_deployment == 0`): open a gap at this
  shotpoint if none is open, and increment `gap_size`;
* deployed shotpoint: if a gap is open and `gap_size >= min_gap_size`,
  append `{start_shotpoint: gap_start, end_shotpoint: shotpoint - 1,
  size: gap_size}`; reset `gap_start = None`, `gap_size = 0` either way. -/
def gapLoop (line_number min_gap_size : Int) :
    List (Int × Bool) → List Gap → Option Int → Int →
    List Gap × Option Int × Int
  | [], gaps, gap_start, gap_size => (gaps, gap_start, gap_size)
  | (shotpoint, has_deployment) :: rest, gaps, gap_start, gap_size =>
    if has_deployment = false then
      gapLoop line_number min_gap_size rest gaps
        (some (gap_start.getD shotpoint)) (gap_size + 1)
    else
      match gap_start with
      | some s =>
        if gap_size ≥ min_gap_size then
          gapLoop line_number min_gap_size rest
            (gaps ++ [⟨line_number, s, shotpoint - 1, gap_size⟩]) none 0
        else
          gapLoop line_number min_gap_size rest gaps none 0
      | none => gapLoop line_number min_gap_size rest gaps none 0

/-- Embeds `TelegramQueries.get_line_gaps` (src/telegram_bot_queries.py,
lines 468-526), applied to the already-materialised coverage rows
`results` (the SQL fetch is the external boundary).  Returns `[]` for
empty `results`; otherwise runs the scan loop and finally, if a gap is
still open and meets the threshold, emits it with
`end_shotpoint = results[-1][0]`. -/
def get_line_gaps (line_number min_gap_size : Int)
    (results : List (Int × Bool)) : List Gap :=
  match results with
  | [] => []
  | r :: rs =>
    match gapLoop line_number min_gap_size (r :: rs) [] none 0 with
    | (gaps, gap_start, gap_size) =>
      match gap_start with
      | some s =>
        if gap_size ≥ min_gap_size then
          gaps ++ [⟨line_number, s,
            ((r :: rs).getLast (List.cons_ne_nil r rs)).1, gap_size⟩]
        else gaps
      | none => gaps

example :
    get_line_gaps 1 1 [(1, true), (2, false), (3, false), (4, false), (5, true)] =
      [⟨1, 2, 4, 3⟩] := by decide

example :
    get_line_gaps 1 1 [(1, true), (2, false), (3, false)] = [⟨1, 2, 3, 2⟩] := by
  decide

example :
    get_line_gaps 1 2 [(1, true), (2, false), (3, true), (4, false), (5, true)] =
      [] := by decide

example : get_line_gaps 1 1 [(1, false), (5, true)] = [⟨1, 1, 4, 1⟩] := by decide

/-- One entry of the list built by
`TelegramQueries.get_all_lines_with_gaps`: the dict
`{'line', 'gap_count', 'total_gap_points', 'gaps'}`. -/
structure LineGaps where
  line : Int
  gap_count : Int
  total_gap_points : Int
  gaps : List Gap
  deriving Repr, DecidableEq

/-- A whole coverage database, the external data behind the SQL
queries: each pair is one line number together with the ordered
`(shotpoint, has_deployment)` coverage rows for that line. -/
abbrev CoverageDb := List (Int × List (Int × Bool))

/-- Stable descending insertion (insert after every element whose key
is ≥ the new element's key), embedding one step of Python's stable
`list.sort(key=lambda x: x['total_gap_points'], reverse=True)`. -/
def insertByTotalDesc (x : LineGaps) : List LineGaps → List LineGaps
  | [] => [x]
  | y :: ys =>
    if x.total_gap_points > y.total_gap_points then x :: y :: ys
    else y :: insertByTotalDesc x ys

/-- Stable sort descending by `total_gap_points`, embedding
`lines_with_gaps.sort(key=lambda x: x['total_gap_points'],
reverse=True)` (Python's sort is stable). -/
def sortByTotalDesc (l : List LineGaps) : List LineGaps :=
  l.foldl (fun acc x => insertByTotalDesc x acc) []

/-- Embeds `TelegramQueries.get_all_lines_with_gaps`
(src/telegram_bot_queries.py, lines 528-557) over a materialised
database: for every line run `get_line_gaps`; keep the lines whose gap
list is non-empty, recording `gap_count = len(gaps)` and
`total_gap_points = sum(gap['size'])`; sort descending by
`total_gap_points`. -/
def get_all_lines_with_gaps (db : CoverageDb) (min_gap_size : Int) :
    List LineGaps :=
  sortByTotalDesc <| db.filterMap fun lc =>
    match get_line_gaps lc.1 min_gap_size lc.2 with
    | [] => none
    | g :: gs =>
      some ⟨lc.1, (g :: gs).length, ((g :: gs).map Gap.size).sum, g :: gs⟩

/-- The four severity buckets of `get_gap_statistics`. -/
inductive Severity where
  | critical | high | medium | low
  deriving Repr, DecidableEq

/-- The `if total_gaps > 50 / elif > 20 / elif > 10 / else` chain of
`TelegramQueries.get_gap_statistics` (src/telegram_bot_queries.py,
lines 610-622) classifying one line by its `total_gap_points`. -/
def severity (total_gaps : Int) : Severity :=
  if total_gaps > 50 then .critical
  else if total_gaps > 20 then .high
  else if total_gaps > 10 then .medium
  else .low

/-- The statistics dict built by `TelegramQueries.get_gap_statistics`,
with the `lines_by_severity` sub-dict flattened into four fields. -/
structure GapStats where
  total_lines_with_gaps : Nat
  total_gaps : Int
  total_gap_points : Int
  critical : List Int
  high : List Int
  medium : List Int
  low : List Int
  deriving Repr, DecidableEq

/-- Embeds `TelegramQueries.get_gap_statistics` (src/telegram_bot_queries.py,
lines 589-624): run `get_all_lines_with_gaps` with `min_gap_size=5`,
total up the lines, and put each line's number into the bucket chosen
by the `if/elif` chain (the loop appends in list order, so each bucket
is the in-order sublist of lines with that severity). -/
def get_gap_statistics (db : CoverageDb) : GapStats :=
  let lines_with_gaps := get_all_lines_with_gaps db 5
  { total_lines_with_gaps := lines_with_gaps.length
    total_gaps := (lines_with_gaps.map LineGaps.gap_count).sum
    total_gap_points := (lines_with_gaps.map LineGaps.total_gap_points).sum
    critical := (lines_with_gaps.filter
      (fun l => severity l.total_gap_points = .critical)).map LineGaps.line
    high := (lines_with_gaps.filter
      (fun l => severity l.total_gap_points = .high)).map LineGaps.line
    medium := (lines_with_gaps.filter
      (fun l => severity l.total_gap_points = .medium)).map LineGaps.line
    low := (lines_with_gaps.filter
      (fun l => severity l.total_gap_points = .low)).map LineGaps.line }

example :
    get_gap_statistics
      [(10, [(1, true), (2, false), (3, false), (4, false), (5, false),
             (6, false), (7, true)])] =
    ⟨1, 1, 5, [], [], [], [10]⟩ := by decide

/-! ## CoordinateTransform (src/postplot/enserv_transform.py)

Floats are embedded as rationals.  The numpy routines the module calls
that are not exact rational arithmetic — `np.linalg.lstsq` (an
SVD-based minimum-norm least-squares solver) and `np.sqrt` — belong to
an external library, not to this repository; they are passed in as
`NumpyOps` so every theorem about control flow holds for every
possible solver result. -/

/-- A control point dict `{'x', 'y', 'lat', 'lon'}`. -/
structure ControlPoint where
  x : ℚ
  y : ℚ
  lat : ℚ
  lon : ℚ
  deriving Repr, DecidableEq

/-- External numpy numerics: `np.linalg.lstsq` (matrix, rhs ↦
coefficient vector; total — it raises only if SVD fails to converge,
which cannot be triggered by finite input) and `np.sqrt`. -/
structure NumpyOps where
  lstsq : List (List ℚ) → List ℚ → List ℚ
  sqrt : ℚ → ℚ

/-- The mutable fields of a `CoordinateTransform` instance that the
fit/transform math touches (`name`/`db_conn` belong to the external
persistence boundary).  `__init__` sets every coefficient and RMSE
field to `None` and the count to 0. -/
structure TransformState where
  coeffs_lon : Option (List ℚ)
  coeffs_lat : Option (List ℚ)
  rmse_lon : Option ℚ
  rmse_lat : Option ℚ
  rmse_meters : Option ℚ
  control_point_count : Nat
  deriving Repr, DecidableEq

/-- The freshly-constructed instance (`CoordinateTransform.__init__`). -/
def TransformState.init : TransformState :=
  ⟨none, none, none, none, none, 0⟩

/-- Errors the embedded methods can signal.  The code raises plain
`ValueError`s; the spec names the conditions.  `notFitted` stands for
`ValueError("Transformation coefficients not calculated or loaded")`;
`insufficientControlPoints` and `singularSystem` are the spec's names
for errors that would reject bad control-point sets (no code path
produces them); `numpyError` stands for an exception raised inside
numpy (e.g. indexing an empty array). -/
inductive TransformError where
  | notFitted
  | insufficientControlPoints
  | singularSystem
  | numpyError
  deriving Repr, DecidableEq

/-- Embeds `np.dot` / one row of a matrix-vector product: sum of pairwise
products (numpy truncates nothing here; lengths always agree in the
embedded code paths). -/
def dot (a b : List ℚ) : ℚ := (List.zipWith (· * ·) a b).sum

/-- The 10-term 3rd-order basis `[1, X, Y, X², XY, Y², X³, X²Y, XY²,
Y³]` evaluated at one point — one row of the design matrix, and also
the `terms` vector of `CoordinateTransform.transform`. -/
def polyTerms (x y : ℚ) : List ℚ :=
  [1, x, y, x ^ 2, x * y, y ^ 2, x ^ 3, x ^ 2 * y, x * y ^ 2, y ^ 3]

/-- Embeds `CoordinateTransform.create_polynomial_matrix`
(src/postplot/enserv_transform.py, lines 39-63): the (n,10) design
matrix, row i being the basis evaluated at point i (`np.column_stack`
of the ten term columns). -/
def create_polynomial_matrix (XY : List (ℚ × ℚ)) : List (List ℚ) :=
  XY.map fun p => polyTerms p.1 p.2

/-- Embeds `np.mean` of a list (numpy yields NaN on an empty array; the
embedded callers only reach this with non-empty input). -/
def npMean (l : List ℚ) : ℚ := l.sum / (l.length : ℚ)

/-- Embeds `np.max` of a list (numpy raises on an empty array; the embedded
callers only reach this with non-empty input). -/
def npMax : List ℚ → ℚ
  | [] => 0
  | x :: xs => xs.foldl max x

/-- Embeds `CoordinateTransform.calculate_coefficients`
(src/postplot/enserv_transform.py, lines 64-97).  Builds the design
matrix, solves the two decoupled least-squares problems with
`np.linalg.lstsq`, stores the coefficient vectors, recomputes the fit
on the control points to get RMSEs (`rmse_meters = rmse_lat * 111000`)
and the point count, and returns `(rmse_lat, rmse_lon, rmse_meters)`.
There is no check on `len(control_points)`: the only failure is
numpy's `IndexError` on `XY[:, 0]` when the list is empty. -/
def calculate_coefficients (np : NumpyOps) (s : TransformState)
    (control_points : List ControlPoint) :
    Except TransformError (TransformState × ℚ × ℚ × ℚ) :=
  match control_points with
  | [] => .error .numpyError
  | p :: ps =>
    let pts := p :: ps
    let XY := pts.map fun q => (q.x, q.y)
    let A := create_polynomial_matrix XY
    let coeffs_lon := np.lstsq A (pts.map ControlPoint.lon)
    let coeffs_lat := np.lstsq A (pts.map ControlPoint.lat)
    let predicted_lon := A.map fun row => dot row coeffs_lon
    let predicted_lat := A.map fun row => dot row coeffs_lat
    let rmse_lon := np.sqrt (npMean (List.zipWith
      (fun pr t => (pr - t) ^ 2) predicted_lon (pts.map ControlPoint.lon)))
    let rmse_lat := np.sqrt (npMean (List.zipWith
      (fun pr t => (pr - t) ^ 2) predicted_lat (pts.map ControlPoint.lat)))
    let rmse_meters := rmse_lat * 111000
    .ok ({ s with
            coeffs_lon := some coeffs_lon
            coeffs_lat := some coeffs_lat
            rmse_lon := some rmse_lon
            rmse_lat := some rmse_lat
            rmse_meters := some rmse_meters
            control_point_count := pts.length },
          rmse_lat, rmse_lon, rmse_meters)

/-- Embeds `CoordinateTransform.transform` (src/postplot/enserv_transform.py,
lines 99-124): raises if either coefficient vector is `None`,
otherwise evaluates the basis at `(x, y)` and dot-products it with
each coefficient vector, returning `(lat, lon)`. -/
def transform (s : TransformState) (x y : ℚ) :
    Except TransformError (ℚ × ℚ) :=
  match s.coeffs_lon, s.coeffs_lat with
  | some cl, some ca =>
    .ok (dot ca (polyTerms x y), dot cl (polyTerms x y))
  | _, _ => .error .notFitted

/-- Embeds `CoordinateTransform.transform_batch`
(src/postplot/enserv_transform.py, lines 126-143): raises if either
coefficient vector is `None`, otherwise builds the design matrix,
forms `lons = A @ coeffs_lon`, `lats = A @ coeffs_lat`, and
column-stacks them into rows `(lat, lon)`. -/
def transform_batch (s : TransformState) (XY : List (ℚ × ℚ)) :
    Except TransformError (List (ℚ × ℚ)) :=
  match s.coeffs_lon, s.coeffs_lat with
  | some cl, some ca =>
    let A := create_polynomial_matrix XY
    let lons := A.map fun row => dot row cl
    let lats := A.map fun row => dot row ca
    .ok (lats.zip lons)
  | _, _ => .error .notFitted

/-- The dict returned by `CoordinateTransform.validate`. -/
structure ValidationReport where
  rmse_lat : ℚ
  rmse_lon : ℚ
  rmse_meters : ℚ
  max_error_lat : ℚ
  max_error_lon : ℚ
  max_error_meters : ℚ
  mean_error_lat : ℚ
  mean_error_lon : ℚ
  point_count : Nat
  deriving Repr, DecidableEq

/-- Embeds `CoordinateTransform.validate` (src/postplot/enserv_transform.py,
lines 250-278): applies `transform_batch` to the labelled points (so
an unfitted transform raises exactly as `transform_batch` does) and
reports per-axis RMSE, max absolute error and mean signed error.  On
an empty point list numpy's `np.max` raises. -/
def validate (np : NumpyOps) (s : TransformState)
    (control_points : List ControlPoint) :
    Except TransformError ValidationReport := do
  let latlon_pred ← transform_batch s
    (control_points.map fun q => (q.x, q.y))
  match control_points with
  | [] => .error .numpyError
  | _ =>
    let errors_lat := List.zipWith (fun pr t => pr.1 - t.lat)
      latlon_pred control_points
    let errors_lon := List.zipWith (fun pr t => pr.2 - t.lon)
      latlon_pred control_points
    let rl := np.sqrt (npMean (errors_lat.map (· ^ 2)))
    .ok { rmse_lat := rl
          rmse_lon := np.sqrt (npMean (errors_lon.map (· ^ 2)))
          rmse_meters := rl * 111000
          max_error_lat := npMax (errors_lat.map abs)
          max_error_lon := npMax (errors_lon.map abs)
          max_error_meters := npMax (errors_lat.map abs) * 111000
          mean_error_lat := npMean errors_lat
          mean_error_lon := npMean errors_lon
          point_count := control_points.length }

/-- A concrete instantiation of the external numpy numerics, used by
closed witnesses and counterexamples (the theorems themselves hold
for every `NumpyOps`). -/
def npOps0 : NumpyOps :=
  ⟨fun _ _ => List.replicate 10 0, fun q => q⟩

example :
    transform ⟨some (List.replicate 10 1), some (List.replicate 10 1),
               none, none, none, 0⟩ 1 1 = .ok (10, 10) := by
  simp [transform, dot, polyTerms, List.replicate]
  norm_num

/-! ## Helper lemmas -/

/-- The embedded `np.dot` is symmetric in its two vector arguments. -/
theorem dot_comm (a b : List ℚ) : dot a b = dot b a := by
  unfold dot
  rw [List.zipWith_comm_of_comm]
  exact fun x y => mul_comm x y

/-- Every gap appended by the scan loop passes the
`gap_size >= min_gap_size` guard, so if every gap already accumulated
has `size ≥ min_gap_size`, so does every gap in the loop's output. -/
theorem gapLoop_size_ge (L m : Int) :
    ∀ (cov : List (Int × Bool)) (gaps : List Gap) (sOpt : Option Int) (z : Int),
      (∀ g ∈ gaps, m ≤ g.size) →
      ∀ g ∈ (gapLoop L m cov gaps sOpt z).1, m ≤ g.size := by
  intro cov
  induction cov with
  | nil => intro gaps sOpt z h g hg; exact h g hg
  | cons r rest ih =>
    intro gaps sOpt z h g hg
    obtain ⟨sp, hd⟩ := r
    simp only [gapLoop] at hg
    split at hg
    · exact ih _ _ _ h g hg
    · split at hg
      · split at hg
        · rename_i hz
          refine ih _ _ _ ?_ g hg
          intro g' hg'
          rcases List.mem_append.mp hg' with h1 | h1
          · exact h g' h1
          · rw [List.mem_singleton] at h1; subst h1; exact hz
        · exact ih _ _ _ h g hg
      · exact ih _ _ _ h g hg

/-- Threshold guarantee of `get_line_gaps`: every emitted gap (closed
by a deployed record or still open at end-of-sequence) has
`size ≥ min_gap_size`. -/
theorem get_line_gaps_size_ge (L m : Int) (cov : List (Int × Bool)) :
    ∀ g ∈ get_line_gaps L m cov, m ≤ g.size := by
  intro g hg
  cases cov with
  | nil => simp [get_line_gaps] at hg
  | cons r rs =>
    have hloop := gapLoop_size_ge L m (r :: rs) [] none 0 (by simp)
    rcases hres : gapLoop L m (r :: rs) [] none 0 with ⟨gaps, sOpt, z⟩
    rw [hres] at hloop
    simp only [get_line_gaps, hres] at hg
    split at hg
    · split at hg
      · rename_i hz
        rcases List.mem_append.mp hg with h1 | h1
        · exact hloop g h1
        · rw [List.mem_singleton] at h1; subst h1; exact hz
      · exact hloop g hg
    · exact hloop g hg

/-- The shotpoint of the last coverage row, or the default `d` if
there are no rows (`results[-1][0]` with an explicit default for the
empty prefix). -/
def lastSpD (cov : List (Int × Bool)) (d : Int) : Int :=
  ((cov.getLast?).map Prod.fst).getD d

theorem lastSpD_of_ne_nil (cov : List (Int × Bool)) (h : cov ≠ []) (d : Int) :
    lastSpD cov d = (cov.getLast h).1 := by
  simp [lastSpD, List.getLast?_eq_getLast cov h]

theorem lastSpD_cons (r : Int × Bool) (rest : List (Int × Bool)) (d : Int) :
    lastSpD (r :: rest) d = lastSpD rest r.1 := by
  cases rest with
  | nil => simp [lastSpD]
  | cons r' rest' =>
    rw [lastSpD_of_ne_nil _ (by simp), lastSpD_of_ne_nil _ (by simp),
      List.getLast_cons (by simp)]

/-- Scan invariant on coverage rows with consecutive shotpoint
numbering (each row's shotpoint is one more than its predecessor's).
If every already-emitted gap satisfies
`size = end_shotpoint - start_shotpoint + 1` and an open gap
`(gap_start = some s, gap_size = z)` covers exactly the identifiers
`s .. prev` (`prev` the previous row's shotpoint, `prev = s + z - 1`),
then the same holds after the loop — with `prev` advanced to the last
shotpoint of the remaining rows. -/
theorem gapLoop_consec (L m : Int) :
    ∀ (cov : List (Int × Bool)) (gaps : List Gap) (sOpt : Option Int)
      (z prev : Int),
      List.Chain' (fun p q : Int × Bool => q.1 = p.1 + 1) cov →
      (∀ p ∈ cov.head?, p.1 = prev + 1) →
      (sOpt = none → z = 0) →
      (∀ s, sOpt = some s → 1 ≤ z ∧ prev = s + z - 1) →
      (∀ g ∈ gaps, g.size = g.end_shotpoint - g.start_shotpoint + 1) →
      (∀ g ∈ (gapLoop L m cov gaps sOpt z).1,
        g.size = g.end_shotpoint - g.start_shotpoint + 1) ∧
      (∀ s, (gapLoop L m cov gaps sOpt z).2.1 = some s →
        1 ≤ (gapLoop L m cov gaps sOpt z).2.2 ∧
        lastSpD cov prev = s + (gapLoop L m cov gaps sOpt z).2.2 - 1) := by
  intro cov
  induction cov with
  | nil =>
    intro gaps sOpt z prev _ _ _ hopen hgaps
    exact ⟨hgaps, fun s hs => hopen s hs⟩
  | cons r rest ih =>
    intro gaps sOpt z prev hchain hhead hnone hopen hgaps
    obtain ⟨sp, hd⟩ := r
    have hsp : sp = prev + 1 := hhead (sp, hd) (by simp)
    rw [List.chain'_cons'] at hchain
    obtain ⟨hchainhead, hchain⟩ := hchain
    simp only [gapLoop]
    rw [lastSpD_cons]
    split
    · -- empty shotpoint: open/extend the gap
      refine ih gaps (some (sOpt.getD sp)) (z + 1) sp hchain hchainhead
        (by simp) ?_ hgaps
      intro s hs
      cases sOpt with
      | none =>
        simp at hs
        have hz0 := hnone rfl
        subst hs
        omega
      | some s0 =>
        simp at hs
        obtain ⟨hz1, hprev⟩ := hopen s0 rfl
        subst hs
        omega
    · -- deployed shotpoint: maybe emit, then reset
      split
      · rename_i s0
        obtain ⟨hz1, hprev⟩ := hopen s0 rfl
        split
        · refine ih _ none 0 sp hchain hchainhead (fun _ => rfl)
            (by simp) ?_
          intro g hg
          rcases List.mem_append.mp hg with h1 | h1
          · exact hgaps g h1
          · rw [List.mem_singleton] at h1; subst h1
            simp only
            omega
        · exact ih _ none 0 sp hchain hchainhead (fun _ => rfl)
            (by simp) hgaps
      · exact ih _ none 0 sp hchain hchainhead (fun _ => rfl)
          (by simp) hgaps

theorem mem_insertByTotalDesc (x y : LineGaps) (l : List LineGaps) :
    y ∈ insertByTotalDesc x l ↔ y = x ∨ y ∈ l := by
  induction l with
  | nil => simp [insertByTotalDesc]
  | cons a l ih =>
    simp only [insertByTotalDesc]
    split
    · simp [List.mem_cons]
    · simp only [List.mem_cons, ih]
      tauto

theorem mem_foldl_insertByTotalDesc (l : List LineGaps) :
    ∀ (acc : List LineGaps) (y : LineGaps),
      y ∈ l.foldl (fun acc x => insertByTotalDesc x acc) acc ↔
        y ∈ acc ∨ y ∈ l := by
  induction l with
  | nil => simp
  | cons a l ih =>
    intro acc y
    rw [List.foldl_cons, ih, mem_insertByTotalDesc]
    simp only [List.mem_cons]
    tauto

/-- The stable sort keeps exactly the elements of its input. -/
theorem mem_sortByTotalDesc (l : List LineGaps) (y : LineGaps) :
    y ∈ sortByTotalDesc l ↔ y ∈ l := by
  unfold sortByTotalDesc
  rw [mem_foldl_insertByTotalDesc]
  simp

/-- Every line reported by `get_all_lines_with_gaps` has
`total_gap_points ≥ min_gap_size`: its gap list is non-empty and every
gap in it passed the threshold. -/
theorem get_all_lines_total_ge (db : CoverageDb) (m : Int) (hm : 0 ≤ m)
    (e : LineGaps) (he : e ∈ get_all_lines_with_gaps db m) :
    m ≤ e.total_gap_points := by
  unfold get_all_lines_with_gaps at he
  rw [mem_sortByTotalDesc, List.mem_filterMap] at he
  obtain ⟨⟨L, cov⟩, hmem, hf⟩ := he
  dsimp only at hf
  rcases hgl : get_line_gaps L m cov with _ | ⟨g, gs⟩ <;> rw [hgl] at hf
  · exact absurd hf (by simp)
  · have hsz : ∀ g' ∈ g :: gs, m ≤ g'.size := by
      intro g' hg'
      exact get_line_gaps_size_ge L m cov g' (hgl ▸ hg')
    have he := Option.some.inj hf
    subst he
    have h1 : m ≤ g.size := hsz g (by simp)
    have h2 : 0 ≤ (gs.map Gap.size).sum := by
      refine List.sum_nonneg ?_
      intro x hx
      obtain ⟨g', hg', rfl⟩ := List.mem_map.mp hx
      exact le_trans hm (hsz g' (by simp [hg']))
    dsimp only
    rw [List.map_cons, List.sum_cons]
    omega

/-- The scan state always satisfies: no open gap means `gap_size = 0`,
and an open gap means `gap_size ≥ 1`. -/
theorem gapLoop_state_inv (L m : Int) :
    ∀ (cov : List (Int × Bool)) (gaps : List Gap) (sOpt : Option Int) (z : Int),
      (sOpt = none → z = 0) → (∀ s, sOpt = some s → 1 ≤ z) →
      ((gapLoop L m cov gaps sOpt z).2.1 = none →
        (gapLoop L m cov gaps sOpt z).2.2 = 0) ∧
      (∀ s, (gapLoop L m cov gaps sOpt z).2.1 = some s →
        1 ≤ (gapLoop L m cov gaps sOpt z).2.2) := by
  intro cov
  induction cov with
  | nil => intro gaps sOpt z h1 h2; exact ⟨h1, h2⟩
  | cons r rest ih =>
    intro gaps sOpt z h1 h2
    obtain ⟨sp, hd⟩ := r
    simp only [gapLoop]
    split
    · refine ih _ _ _ (by simp) ?_
      intro s _
      cases sOpt with
      | none => have := h1 rfl; omega
      | some s0 => have := h2 s0 rfl; omega
    · split
      · split
        · exact ih _ _ _ (fun _ => rfl) (by simp)
        · exact ih _ _ _ (fun _ => rfl) (by simp)
      · exact ih _ _ _ (fun _ => rfl) (by simp)

/-- The scan state `(gap_start, gap_size)` evolves independently of
`min_gap_size`, and the gaps emitted with threshold `m` are exactly
the gaps emitted with threshold 1 filtered by `m ≤ size`. -/
theorem gapLoop_filter_one (L m : Int) :
    ∀ (cov : List (Int × Bool)) (gaps : List Gap) (sOpt : Option Int) (z : Int),
      (sOpt = none → z = 0) → (∀ s, sOpt = some s → 1 ≤ z) →
      (gapLoop L m cov (gaps.filter (fun g => m ≤ g.size)) sOpt z).1 =
        ((gapLoop L 1 cov gaps sOpt z).1).filter (fun g => m ≤ g.size) ∧
      (gapLoop L m cov (gaps.filter (fun g => m ≤ g.size)) sOpt z).2 =
        (gapLoop L 1 cov gaps sOpt z).2 := by
  intro cov
  induction cov with
  | nil => intro gaps sOpt z _ _; exact ⟨rfl, rfl⟩
  | cons r rest ih =>
    intro gaps sOpt z h1 h2
    obtain ⟨sp, hd⟩ := r
    simp only [gapLoop]
    split
    · refine ih _ _ _ (by simp) ?_
      intro s _
      cases sOpt with
      | none => have := h1 rfl; omega
      | some s0 => have := h2 s0 rfl; omega
    · split
      · rename_i s0
        have hz1 : z ≥ 1 := h2 s0 rfl
        rw [if_pos hz1]
        by_cases hzm : z ≥ m
        · rw [if_pos hzm]
          have heq : (gaps.filter (fun g => m ≤ g.size)) ++
              [Gap.mk L s0 (sp - 1) z] =
              (gaps ++ [Gap.mk L s0 (sp - 1) z]).filter
                (fun g => m ≤ g.size) := by
            rw [List.filter_append]
            simp [hzm]
          rw [heq]
          exact ih _ _ _ (fun _ => rfl) (by simp)
        · rw [if_neg hzm]
          have heq : gaps.filter (fun g => m ≤ g.size) =
              (gaps ++ [Gap.mk L s0 (sp - 1) z]).filter
                (fun g => m ≤ g.size) := by
            rw [List.filter_append]
            simp [hzm]
          rw [heq]
          exact ih _ _ _ (fun _ => rfl) (by simp)
      · exact ih _ _ _ (fun _ => rfl) (by simp)

/-- Running `get_line_gaps` with threshold `m` returns exactly the maximal
runs (the threshold-1 gaps) of size ≥ `m`: threshold filtering never
splits, merges or truncates a gap. -/
theorem get_line_gaps_filter_one (L m : Int) (cov : List (Int × Bool)) :
    get_line_gaps L m cov =
      (get_line_gaps L 1 cov).filter (fun g => m ≤ g.size) := by
  cases cov with
  | nil => rfl
  | cons r rs =>
    have hfil := gapLoop_filter_one L m (r :: rs) [] none 0
      (fun _ => rfl) (by simp)
    have hinv := gapLoop_state_inv L 1 (r :: rs) [] none 0
      (fun _ => rfl) (by simp)
    simp only [List.filter_nil] at hfil
    rcases h1 : gapLoop L 1 (r :: rs) [] none 0 with ⟨gaps1, sOpt1, z1⟩
    rcases hm : gapLoop L m (r :: rs) [] none 0 with ⟨gapsm, sOptm, zm⟩
    rw [h1, hm] at hfil
    rw [h1] at hinv
    obtain ⟨hfg, hfs⟩ := hfil
    dsimp only at hfg hfs
    have hs : sOptm = sOpt1 := congrArg Prod.fst hfs
    have hz : zm = z1 := congrArg Prod.snd hfs
    subst hs hz
    simp only [get_line_gaps, h1, hm]
    cases sOptm with
    | none => exact hfg
    | some s =>
      dsimp only
      have hz1 : zm ≥ 1 := hinv.2 s rfl
      rw [if_pos hz1]
      by_cases hzm : zm ≥ m
      · rw [if_pos hzm, hfg, List.filter_append]
        simp [hzm]
      · rw [if_neg hzm, hfg, List.filter_append]
        simp [hzm]

/-- A line all of whose maximal gap runs are smaller than 5 yields no
gaps at all under threshold 5. -/
theorem get_line_gaps_five_empty (L : Int) (cov : List (Int × Bool))
    (h : ∀ g ∈ get_line_gaps L 1 cov, g.size < 5) :
    get_line_gaps L 5 cov = [] := by
  rw [get_line_gaps_filter_one L 5 cov, List.filter_eq_nil_iff]
  intro g hg
  have := h g hg
  simp only [decide_eq_true_eq]
  omega

/-- Dropping a line whose threshold-5 gap list is empty leaves the
project-wide statistics unchanged. -/
theorem get_gap_statistics_drop (db1 db2 : CoverageDb) (L : Int)
    (cov : List (Int × Bool)) (h : get_line_gaps L 5 cov = []) :
    get_gap_statistics (db1 ++ (L, cov) :: db2) =
      get_gap_statistics (db1 ++ db2) := by
  unfold get_gap_statistics
  have hlines : get_all_lines_with_gaps (db1 ++ (L, cov) :: db2) 5 =
      get_all_lines_with_gaps (db1 ++ db2) 5 := by
    unfold get_all_lines_with_gaps
    congr 1
    rw [List.filterMap_append, List.filterMap_append]
    congr 1
    rw [List.filterMap_cons]
    dsimp only
    rw [h]
  rw [hlines]

/-! ## Claim theorems -/

/-- C8: `get_line_gaps` never emits a gap of size below
`min_gap_size` — neither a gap closed by a deployed record nor one
still open at end-of-sequence; in particular an input with two
single-point gaps and `min_gap_size = 2` yields `[]`. -/
theorem C8_threshold_filtering :
    (∀ (L m : Int) (cov : List (Int × Bool)) (g : Gap),
      g ∈ get_line_gaps L m cov → m ≤ g.size) ∧
    get_line_gaps 1 2
      [(1, true), (2, false), (3, true), (4, false), (5, true)] = [] :=
  ⟨fun L m cov g hg => get_line_gaps_size_ge L m cov g hg, by decide⟩

/-- Closed witness for C8's universal part: the size-3 gap of the
spec's single-gap example is ≥ its `min_gap_size` of 2. -/
theorem C8_threshold_filtering_witness :
    (2 : Int) ≤ (Gap.mk 1 2 4 3).size :=
  C8_threshold_filtering.1 1 2
    [(1, true), (2, false), (3, false), (4, false), (5, true)]
    ⟨1, 2, 4, 3⟩ (by decide)

/-- C2 (amended): on coverage sequences whose shotpoints are
consecutive (each row's shotpoint is one more than its predecessor's),
every gap emitted by `get_line_gaps` satisfies
`size = end_shotpoint - start_shotpoint + 1`.  (On general ascending
sequences with non-unit steps, `size` counts input records and the
identity fails — see the counterexample.) -/
theorem C2_size_identity_consecutive (L m : Int) (cov : List (Int × Bool))
    (hconsec : List.Chain' (fun p q : Int × Bool => q.1 = p.1 + 1) cov) :
    ∀ g ∈ get_line_gaps L m cov,
      g.size = g.end_shotpoint - g.start_shotpoint + 1 := by
  intro g hg
  cases cov with
  | nil => simp [get_line_gaps] at hg
  | cons r rs =>
    have H := gapLoop_consec L m (r :: rs) [] none 0 (r.1 - 1) hconsec
      (by intro p hp; simp at hp; subst hp; omega) (fun _ => rfl)
      (by simp) (by simp)
    rcases hres : gapLoop L m (r :: rs) [] none 0 with ⟨gaps, sOpt, z⟩
    rw [hres] at H
    obtain ⟨hall, hopenp⟩ := H
    simp only [get_line_gaps, hres] at hg
    split at hg
    · split at hg
      · rcases List.mem_append.mp hg with h1 | h1
        · exact hall g h1
        · rw [List.mem_singleton] at h1; subst h1
          rename_i s _
          obtain ⟨hz1, hlast⟩ := hopenp s rfl
          rw [lastSpD_of_ne_nil _ (List.cons_ne_nil r rs)] at hlast
          dsimp only at hz1 hlast ⊢
          omega
      · exact hall g hg
    · exact hall g hg

/-- Closed witness for C2 (amended), on the spec's trailing-gap
example, which has consecutive shotpoints 1, 2, 3. -/
theorem C2_size_identity_consecutive_witness :
    (Gap.mk 1 2 3 2).size =
      (Gap.mk 1 2 3 2).end_shotpoint - (Gap.mk 1 2 3 2).start_shotpoint + 1 :=
  C2_size_identity_consecutive 1 1 [(1, true), (2, false), (3, false)]
    (by simp [List.chain'_cons]) ⟨1, 2, 3, 2⟩ (by decide)

/-- C2 counterexample: `[(1,false),(5,true)]` is strictly ascending by
shotpoint, yet the emitted gap has `size = 1` while
`end_shotpoint - start_shotpoint + 1 = 4`: the accumulated `size`
counts input records, and the closing record's shotpoint minus one
(not the previous shotpoint seen) becomes `end_shotpoint`. -/
theorem C2_size_identity_counterexample :
    List.Chain' (fun p q : Int × Bool => p.1 < q.1) [(1, false), (5, true)] ∧
    get_line_gaps 1 1 [(1, false), (5, true)] = [⟨1, 1, 4, 1⟩] ∧
    ¬ (Gap.mk 1 1 4 1).size =
        (Gap.mk 1 1 4 1).end_shotpoint - (Gap.mk 1 1 4 1).start_shotpoint + 1 :=
  ⟨by simp [List.chain'_cons], by decide, by decide⟩

/-- A coverage line with exactly one gap of exactly 5 missing
shotpoints (identifiers 2..6, closed by a deployment at 7), used by
the concrete severity/statistics theorems. -/
def covGap5 : List (Int × Bool) :=
  [(1, true), (2, false), (3, false), (4, false), (5, false),
   (6, false), (7, true)]

/-- C3 (amended): every line placed in any of the four severity
buckets corresponds to a reported entry with `total_gap_points ≥ 5` —
so lines with fewer than 5 total gap points never appear in a bucket —
but a line with exactly 5 gap points is *not* excluded: it is
classified `low` (see the counterexample). -/
theorem C3_bucket_total_ge_five (db : CoverageDb) (l : Int)
    (hl : l ∈ (get_gap_statistics db).critical ∨
      l ∈ (get_gap_statistics db).high ∨
      l ∈ (get_gap_statistics db).medium ∨
      l ∈ (get_gap_statistics db).low) :
    ∃ e, e ∈ get_all_lines_with_gaps db 5 ∧ e.line = l ∧
      5 ≤ e.total_gap_points := by
  simp only [get_gap_statistics] at hl
  have hmem : ∃ e, e ∈ get_all_lines_with_gaps db 5 ∧ e.line = l := by
    rcases hl with hl | hl | hl | hl <;>
    · obtain ⟨e, he, hline⟩ := List.mem_map.mp hl
      exact ⟨e, (List.mem_filter.mp he).1, hline⟩
  obtain ⟨e, he, hline⟩ := hmem
  exact ⟨e, he, hline, get_all_lines_total_ge db 5 (by norm_num) e he⟩

/-- Closed witness for C3 (amended): line 20 sits in the `low` bucket
and its reported entry indeed has `total_gap_points ≥ 5`. -/
theorem C3_bucket_total_ge_five_witness :
    ∃ e, e ∈ get_all_lines_with_gaps [(20, covGap5)] 5 ∧ e.line = 20 ∧
      5 ≤ e.total_gap_points :=
  C3_bucket_total_ge_five [(20, covGap5)] 20
    (Or.inr (Or.inr (Or.inr (by decide))))

/-- C3 counterexample: a line whose only gap has size exactly 5 has
`total_gap_points = 5 ≤ 5`, yet it is **not** excluded from the
severity buckets — `get_gap_statistics` puts it in `low`. -/
theorem C3_low_counterexample :
    get_all_lines_with_gaps [(10, covGap5)] 5 =
      [⟨10, 1, 5, [⟨10, 2, 6, 5⟩]⟩] ∧
    (get_gap_statistics [(10, covGap5)]).low = [10] := by decide

/-- C10: `get_gap_statistics` filters with `min_gap_size = 5` before
summing and classifying.  A line all of whose maximal gap runs have
size < 5 yields an empty threshold-5 gap list, and removing it from
the database leaves the whole statistics value (totals and all four
buckets) unchanged — even if the sum of its missing shotpoints is
large; and every reported line has `total_gap_points ≥ 5`. -/
theorem C10_statistics_use_threshold_five :
    (∀ (db1 db2 : CoverageDb) (L : Int) (cov : List (Int × Bool)),
      (∀ g ∈ get_line_gaps L 1 cov, g.size < 5) →
      get_line_gaps L 5 cov = [] ∧
      get_gap_statistics (db1 ++ (L, cov) :: db2) =
        get_gap_statistics (db1 ++ db2)) ∧
    (∀ (db : CoverageDb) (e : LineGaps),
      e ∈ get_all_lines_with_gaps db 5 → 5 ≤ e.total_gap_points) := by
  constructor
  · intro db1 db2 L cov h
    have h5 := get_line_gaps_five_empty L cov h
    exact ⟨h5, get_gap_statistics_drop db1 db2 L cov h5⟩
  · intro db e he
    exact get_all_lines_total_ge db 5 (by norm_num) e he

/-- Closed witness for C10: a line with 30 missing shotpoints spread
over single-point runs (each of size 1 < 5) contributes nothing to the
statistics, and the one reported line has `total_gap_points = 5 ≥ 5`. -/
theorem C10_statistics_use_threshold_five_witness :
    (get_line_gaps 1 5
      [(1, false), (2, true), (3, false), (4, true), (5, false)] = [] ∧
     get_gap_statistics ([] ++
        (1, [(1, false), (2, true), (3, false), (4, true), (5, false)]) ::
          [(2, covGap5)]) =
       get_gap_statistics ([] ++ [(2, covGap5)])) ∧
    5 ≤ (LineGaps.mk 2 1 5 [⟨2, 2, 6, 5⟩]).total_gap_points :=
  ⟨C10_statistics_use_threshold_five.1 [] [(2, covGap5)] 1
      [(1, false), (2, true), (3, false), (4, true), (5, false)] (by decide),
   C10_statistics_use_threshold_five.2 [(2, covGap5)] _ (by decide)⟩

/-- C4 counterexample: `[(3,false),(1,true)]` is not strictly
ascending by shotpoint, yet `get_line_gaps` does not fail — it runs
the same scan and returns a gap list (here a nonsensical gap with
`end_shotpoint = 0 < start_shotpoint = 3`). -/
theorem C4_no_validation_counterexample :
    ¬ List.Chain' (fun p q : Int × Bool => p.1 < q.1) [(3, false), (1, true)] ∧
    get_line_gaps 1 1 [(3, false), (1, true)] = [⟨1, 3, 0, 1⟩] :=
  ⟨by norm_num [List.chain'_cons], by decide⟩

/-- C4 (amended): `get_line_gaps` performs no input validation — it is
a total scan that relies on the SQL `ORDER BY c.shotpoint` for
sortedness.  On a non-monotonic sequence it returns a gap list with
`end_shotpoint < start_shotpoint`, and on a sequence with a duplicated
shotpoint the duplicate is counted twice in `size`; no error is ever
raised. -/
theorem C4_no_validation :
    get_line_gaps 1 1 [(3, false), (1, true)] = [⟨1, 3, 0, 1⟩] ∧
    get_line_gaps 1 1 [(2, false), (2, false), (4, true)] = [⟨1, 2, 3, 2⟩] := by
  decide

/-- Nine pairwise-distinct control points (all on the parabola
`y = x²`, labels zero), the concrete input of the C1 counterexample. -/
def ninePts : List ControlPoint :=
  [⟨0, 0, 0, 0⟩, ⟨1, 1, 0, 0⟩, ⟨2, 4, 0, 0⟩, ⟨3, 9, 0, 0⟩, ⟨4, 16, 0, 0⟩,
   ⟨5, 25, 0, 0⟩, ⟨6, 36, 0, 0⟩, ⟨7, 49, 0, 0⟩, ⟨8, 64, 0, 0⟩]

/-- C1 (amended): `calculate_coefficients` performs no minimum-count
check.  For every non-empty control-point list — whatever
`np.linalg.lstsq` returns — it succeeds, storing both coefficient
vectors (a fitted transform) and the point count; it never fails with
an insufficient-control-points error (no such code path exists).  Only
the empty list fails, with numpy's `IndexError`. -/
theorem C1_no_minimum_count_check (np : NumpyOps) (s : TransformState)
    (pts : List ControlPoint) (h : pts ≠ []) :
    calculate_coefficients np s pts ≠ .error .insufficientControlPoints ∧
    ∃ st r, calculate_coefficients np s pts = .ok (st, r) ∧
      st.coeffs_lon.isSome ∧ st.coeffs_lat.isSome ∧
      st.control_point_count = pts.length := by
  match pts, h with
  | p :: ps, _ =>
    exact ⟨by simp [calculate_coefficients], _, _, rfl, rfl, rfl, rfl⟩

/-- Closed witness for C1 (amended) at nine concrete points. -/
theorem C1_no_minimum_count_check_witness :
    calculate_coefficients npOps0 .init ninePts ≠
      .error .insufficientControlPoints ∧
    ∃ st r, calculate_coefficients npOps0 .init ninePts = .ok (st, r) ∧
      st.coeffs_lon.isSome ∧ st.coeffs_lat.isSome ∧
      st.control_point_count = ninePts.length :=
  C1_no_minimum_count_check npOps0 .init ninePts (by simp [ninePts])

/-- C1 counterexample: fitting with exactly 9 distinct control points
does **not** fail — `calculate_coefficients` returns a fitted result. -/
theorem C1_nine_points_counterexample :
    ninePts.length = 9 ∧ ninePts.Nodup ∧
    ∃ r, calculate_coefficients npOps0 TransformState.init ninePts = .ok r :=
  ⟨rfl,
   by norm_num [ninePts, List.nodup_cons, List.mem_cons, ControlPoint.mk.injEq],
   ⟨_, rfl⟩⟩

/-- C9: on `[(1,true),(2,false),(3,false)]` with `min_gap_size = 1`,
`get_line_gaps` returns exactly one gap `{start_shotpoint = 2,
end_shotpoint = 3, size = 2}`: a gap still open at end-of-sequence is
emitted with `end_shotpoint` equal to the last shotpoint seen. -/
theorem C9_trailing_gap :
    get_line_gaps 1 1 [(1, true), (2, false), (3, false)] =
      [⟨1, 2, 3, 2⟩] := by decide

/-- C7: `get_gap_statistics`' severity chain classifies
`total_gap_points = 51` as critical and exactly `50` as high, and
every tier boundary is a strictly-greater comparison (`>50`, `>20`,
`>10`). -/
theorem C7_severity_boundaries :
    severity 51 = .critical ∧ severity 50 = .high ∧
    (∀ t : Int, severity t = .critical ↔ 50 < t) ∧
    (∀ t : Int, severity t = .high ↔ 20 < t ∧ t ≤ 50) ∧
    (∀ t : Int, severity t = .medium ↔ 10 < t ∧ t ≤ 20) ∧
    (∀ t : Int, severity t = .low ↔ t ≤ 10) := by
  refine ⟨by decide, by decide, ?_, ?_, ?_, ?_⟩ <;>
    intro t <;> simp only [severity] <;> split_ifs <;>
    simp_all <;> omega

/-- C6: on an instance whose coefficient vectors are absent (neither
fit nor load has succeeded), `transform`, `transform_batch` and
`validate` all fail with the not-fitted error (the
`ValueError("Transformation coefficients not calculated or loaded")`
raise) instead of returning a result. -/
theorem C6_not_fitted (s : TransformState) (np : NumpyOps)
    (x y : ℚ) (XY : List (ℚ × ℚ)) (pts : List ControlPoint)
    (hlon : s.coeffs_lon = none) (hlat : s.coeffs_lat = none) :
    transform s x y = .error .notFitted ∧
    transform_batch s XY = .error .notFitted ∧
    validate np s pts = .error .notFitted := by
  refine ⟨?_, ?_, ?_⟩ <;>
    simp [transform, transform_batch, validate, hlon, hlat, bind, Except.bind]

/-- Closed witness for C6 at the freshly-constructed instance. -/
theorem C6_not_fitted_witness :
    transform .init 0 0 = .error .notFitted ∧
    transform_batch .init [(1, 2)] = .error .notFitted ∧
    validate npOps0 .init [] = .error .notFitted :=
  C6_not_fitted .init npOps0 0 0 [(1, 2)] [] rfl rfl

/-- C5: on a fitted transform, `transform_batch` succeeds and its row
`i` is exactly the `(lat, lon)` pair `transform` returns for point
`i`, for every `i` (exact equality in rational arithmetic). -/
theorem C5_batch_scalar_consistency (s : TransformState)
    (cl ca : List ℚ) (XY : List (ℚ × ℚ))
    (hlon : s.coeffs_lon = some cl) (hlat : s.coeffs_lat = some ca) :
    ∃ rows, transform_batch s XY = .ok rows ∧
      rows.length = XY.length ∧
      ∀ (i : Nat) (p : ℚ × ℚ), XY[i]? = some p →
        ∃ q, rows[i]? = some q ∧ transform s p.1 p.2 = .ok q := by
  refine ⟨XY.map fun p =>
    (dot (polyTerms p.1 p.2) ca, dot (polyTerms p.1 p.2) cl), ?_, ?_, ?_⟩
  · simp only [transform_batch, hlon, hlat, create_polynomial_matrix,
      List.map_map]
    rw [List.zip_map']
    rfl
  · simp
  · intro i p hp
    refine ⟨(dot (polyTerms p.1 p.2) ca, dot (polyTerms p.1 p.2) cl), ?_, ?_⟩
    · rw [List.getElem?_map, hp]; rfl
    · simp [transform, hlon, hlat, dot_comm]

/-- Closed witness for C5: a concrete fitted state and a one-point
batch. -/
theorem C5_batch_scalar_consistency_witness :
    ∃ rows,
      transform_batch ⟨some (List.replicate 10 1),
        some (List.replicate 10 1), none, none, none, 0⟩ [(1, 2)] =
          .ok rows ∧
      rows.length = [((1 : ℚ), (2 : ℚ))].length ∧
      ∀ (i : Nat) (p : ℚ × ℚ), [((1 : ℚ), (2 : ℚ))][i]? = some p →
        ∃ q, rows[i]? = some q ∧
          transform ⟨some (List.replicate 10 1),
            some (List.replicate 10 1), none, none, none, 0⟩ p.1 p.2 =
              .ok q :=
  C5_batch_scalar_consistency _ _ _ [(1, 2)] rfl rfl

end SwathMovers
